import Mathlib

/-
  Shallow embedding of the prior-authorization Soroban contract
  (contracts/prior-authorization/src/{lib.rs, storage.rs, types.rs}).

  Modelling conventions:
  - Address, Symbol, BytesN<32> are modelled as Nat / String tags; the
    contract only compares them for equality.
  - u32 / u64 values are modelled as Nat.  The contract is built with
    overflow checks, so an overflowing add traps and commits nothing;
    all non-trapping executions are captured faithfully by Nat.
  - The persistent key-value store is modelled as total functions
    Nat -> Option _ (or Nat -> List _ for the unwrap_or(Vec::new) keys);
    env.storage().set is a pointwise function update.
  - require_auth is the external identity collaborator: every operation
    receives the caller address already authenticated, and the code's own
    owner comparisons are modelled explicitly.
  - env.ledger().timestamp() is passed in as an explicit `now` argument
    to each operation that reads the clock.
  - A contract function returning Err is modelled as (.error e, s') where
    s' contains exactly the storage writes the Rust source performed
    before returning (all error paths except the expiry path in
    track_authorization_usage perform none).
-/

namespace PriorAuth

/-- Lifecycle status of a prior authorization request (types.rs, AuthStatus). -/
inductive AuthStatus where
  | Submitted
  | UnderReview
  | MoreInfoNeeded
  | PeerToPeerScheduled
  | Approved
  | Denied
  | Appealed
  | Expired
deriving DecidableEq

/-- Contract error codes (types.rs, Error). -/
inductive Error where
  | Unauthorized
  | AuthRequestNotFound
  | AppealNotFound
  | InvalidDecision
  | InvalidStatusTransition
  | AlreadyReviewed
  | NotDenied
  | MaxAppealLevelReached
  | NotApproved
  | AuthorizationExpired
  | ExceedsApprovedUnits
  | PeerToPeerAlreadyScheduled
deriving DecidableEq

/-- Core authorization request record (types.rs, AuthorizationRequest). -/
structure AuthorizationRequest where
  auth_request_id : Nat
  provider_id : Nat
  patient_id : Nat
  policy_id : Nat
  authorization_type : String
  requested_service : String
  service_codes : List String
  diagnosis_codes : List String
  clinical_justification_hash : Nat
  urgency : String
  status : AuthStatus
  decision : Option String
  approved_units : Option Nat
  units_used : Nat
  valid_from : Option Nat
  valid_until : Option Nat
  submitted_at : Nat
  decision_date : Option Nat
  expedited : Bool
deriving DecidableEq

/-- Summary view returned by get_authorization_status (types.rs, AuthorizationInfo). -/
structure AuthorizationInfo where
  auth_request_id : Nat
  provider_id : Nat
  patient_id : Nat
  requested_service : String
  status : AuthStatus
  decision : Option String
  approved_units : Option Nat
  units_used : Nat
  valid_from : Option Nat
  valid_until : Option Nat
  submitted_at : Nat
  decision_date : Option Nat
deriving DecidableEq

/-- A supporting document attached to an auth request (types.rs, SupportingDocument). -/
structure SupportingDocument where
  auth_request_id : Nat
  provider_id : Nat
  document_hash : Nat
  document_type : String
  attached_at : Nat
deriving DecidableEq

/-- A peer-to-peer review request (types.rs, PeerToPeerRequest). -/
structure PeerToPeerRequest where
  auth_request_id : Nat
  provider_id : Nat
  requested_date : Nat
  preferred_times : List String
  scheduled_time : Option Nat
  medical_director : Option Nat
deriving DecidableEq

/-- An appeal against a denied authorization (types.rs, Appeal). -/
structure Appeal where
  appeal_id : Nat
  auth_request_id : Nat
  provider_id : Nat
  appeal_level : Nat
  appeal_reason_hash : Nat
  additional_evidence_hash : Option Nat
  submitted_at : Nat
deriving DecidableEq

/-- An extension request for an existing authorization (types.rs, ExtensionRequest). -/
structure ExtensionRequest where
  auth_request_id : Nat
  provider_id : Nat
  extension_reason : String
  requested_additional_units : Nat
  requested_at : Nat
deriving DecidableEq

/-- A usage record for tracking units consumed (types.rs, UsageRecord). -/
structure UsageRecord where
  auth_request_id : Nat
  provider_id : Nat
  units_used : Nat
  service_date : Nat
  recorded_at : Nat
deriving DecidableEq

/-- Pointwise update of an Option-valued store key (storage set on a DataKey). -/
def store_set {α : Type} (m : Nat → Option α) (k : Nat) (v : α) : Nat → Option α :=
  fun j => if j = k then some v else m j

/-- Pointwise update of a List-valued store key (keys read with unwrap_or(Vec::new)). -/
def list_set {α : Type} (m : Nat → List α) (k : Nat) (v : List α) : Nat → List α :=
  fun j => if j = k then v else m j

/-- Whole persistent storage of the contract, one field per DataKey family
(types.rs, DataKey; storage.rs accessors). -/
structure ContractState where
  auth_counter : Nat
  appeal_counter : Nat
  auth_requests : Nat → Option AuthorizationRequest
  documents : Nat → List SupportingDocument
  peer_to_peer : Nat → Option PeerToPeerRequest
  appeals_for_auth : Nat → List Appeal
  appeal_by_id : Nat → Option Appeal
  extensions : Nat → Option ExtensionRequest
  usage_records : Nat → List UsageRecord
  provider_auths : Nat → List Nat
  patient_auths : Nat → List Nat

/-- Empty storage: every get misses, both counters read as 0 via unwrap_or(0). -/
def initial_state : ContractState :=
  { auth_counter := 0
    appeal_counter := 0
    auth_requests := fun _ => none
    documents := fun _ => []
    peer_to_peer := fun _ => none
    appeals_for_auth := fun _ => []
    appeal_by_id := fun _ => none
    extensions := fun _ => none
    usage_records := fun _ => []
    provider_auths := fun _ => []
    patient_auths := fun _ => [] }

/-- MAX_APPEAL_LEVEL constant (lib.rs line 13). -/
def MAX_APPEAL_LEVEL : Nat := 3

/-- The appeal-level monotonicity guard of appeal_denial (lib.rs lines 272-279):
true when a prior appeal exists and the new level does not strictly exceed
the last recorded appeal's level. -/
def level_not_increasing (existing : List Appeal) (appeal_level : Nat) : Bool :=
  match existing.getLast? with
  | some last => decide (appeal_level ≤ last.appeal_level)
  | none => false

/-- The lazy-expiry guard of track_authorization_usage (lib.rs lines 400-402):
true when valid_until is set and the current time strictly exceeds it. -/
def is_past_valid_until (req : AuthorizationRequest) (now : Nat) : Bool :=
  match req.valid_until with
  | some valid_until => decide (now > valid_until)
  | none => false

/-- The units-ceiling guard of track_authorization_usage (lib.rs lines 409-414):
true when approved_units is set and units_used + units would exceed it. -/
def exceeds_units (req : AuthorizationRequest) (units : Nat) : Bool :=
  match req.approved_units with
  | some approved => decide (req.units_used + units > approved)
  | none => false

/-- submit_prior_authorization (lib.rs lines 21-69).  Allocates the next auth
id (storage.rs next_auth_id), stores a fresh Submitted record and appends the
id to both secondary indices.  Never fails once the caller is authenticated. -/
def submit_prior_authorization (s : ContractState) (now : Nat)
    (provider_id patient_id policy_id : Nat)
    (authorization_type requested_service : String)
    (service_codes diagnosis_codes : List String)
    (clinical_justification_hash : Nat) (urgency : String) :
    Except Error Nat × ContractState :=
  let auth_request_id := s.auth_counter + 1
  let req : AuthorizationRequest :=
    { auth_request_id := auth_request_id
      provider_id := provider_id
      patient_id := patient_id
      policy_id := policy_id
      authorization_type := authorization_type
      requested_service := requested_service
      service_codes := service_codes
      diagnosis_codes := diagnosis_codes
      clinical_justification_hash := clinical_justification_hash
      urgency := urgency
      status := .Submitted
      decision := none
      approved_units := none
      units_used := 0
      valid_from := none
      valid_until := none
      submitted_at := now
      decision_date := none
      expedited := false }
  (.ok auth_request_id,
    { s with
      auth_counter := auth_request_id
      auth_requests := store_set s.auth_requests auth_request_id req
      provider_auths :=
        list_set s.provider_auths provider_id (s.provider_auths provider_id ++ [auth_request_id])
      patient_auths :=
        list_set s.patient_auths patient_id (s.patient_auths patient_id ++ [auth_request_id]) })

/-- attach_supporting_documentation (lib.rs lines 72-104). -/
def attach_supporting_documentation (s : ContractState) (now : Nat)
    (auth_request_id provider_id document_hash : Nat) (document_type : String) :
    Except Error Unit × ContractState :=
  match s.auth_requests auth_request_id with
  | none => (.error .AuthRequestNotFound, s)
  | some req =>
    if req.provider_id ≠ provider_id then
      (.error .Unauthorized, s)
    else
      let doc : SupportingDocument :=
        { auth_request_id := auth_request_id
          provider_id := provider_id
          document_hash := document_hash
          document_type := document_type
          attached_at := now }
      (.ok (),
        { s with
          documents :=
            list_set s.documents auth_request_id (s.documents auth_request_id ++ [doc]) })

/-- review_authorization (lib.rs lines 109-162).  Only Submitted, UnderReview,
MoreInfoNeeded or PeerToPeerScheduled requests can be reviewed; the decision
symbol selects the new status; req.decision records the decision in every
successful branch. -/
def review_authorization (s : ContractState) (now : Nat)
    (auth_request_id reviewer_id : Nat) (decision : String)
    (approved_units valid_from valid_until : Option Nat) (review_notes : String) :
    Except Error Unit × ContractState :=
  match s.auth_requests auth_request_id with
  | none => (.error .AuthRequestNotFound, s)
  | some req =>
    match req.status with
    | .Submitted | .UnderReview | .MoreInfoNeeded | .PeerToPeerScheduled =>
      if decision = "approved" then
        let req :=
          { req with
            status := .Approved
            approved_units := approved_units
            valid_from := valid_from
            valid_until := valid_until
            decision_date := some now
            decision := some decision }
        (.ok (), { s with auth_requests := store_set s.auth_requests auth_request_id req })
      else if decision = "denied" then
        let req :=
          { req with
            status := .Denied
            decision_date := some now
            decision := some decision }
        (.ok (), { s with auth_requests := store_set s.auth_requests auth_request_id req })
      else if decision = "more_info_needed" then
        let req :=
          { req with
            status := .MoreInfoNeeded
            decision := some decision }
        (.ok (), { s with auth_requests := store_set s.auth_requests auth_request_id req })
      else
        (.error .InvalidDecision, s)
    | _ => (.error .InvalidStatusTransition, s)

/-- request_peer_to_peer (lib.rs lines 165-208).  Creates the single
peer-to-peer record; promotes Submitted / MoreInfoNeeded to UnderReview. -/
def request_peer_to_peer (s : ContractState)
    (auth_request_id provider_id requested_date : Nat) (preferred_times : List String) :
    Except Error Unit × ContractState :=
  match s.auth_requests auth_request_id with
  | none => (.error .AuthRequestNotFound, s)
  | some req =>
    if req.provider_id ≠ provider_id then
      (.error .Unauthorized, s)
    else
      match s.peer_to_peer auth_request_id with
      | some _ => (.error .PeerToPeerAlreadyScheduled, s)
      | none =>
        let p2p : PeerToPeerRequest :=
          { auth_request_id := auth_request_id
            provider_id := provider_id
            requested_date := requested_date
            preferred_times := preferred_times
            scheduled_time := none
            medical_director := none }
        let s1 := { s with peer_to_peer := store_set s.peer_to_peer auth_request_id p2p }
        match req.status with
        | .Submitted | .MoreInfoNeeded =>
          (.ok (),
            { s1 with
              auth_requests :=
                store_set s1.auth_requests auth_request_id { req with status := .UnderReview } })
        | _ => (.ok (), s1)

/-- schedule_peer_to_peer (lib.rs lines 211-242).  Fills in the scheduled time
and medical director, then unconditionally sets the request's status to
PeerToPeerScheduled regardless of its prior status. -/
def schedule_peer_to_peer (s : ContractState)
    (auth_request_id insurance_admin scheduled_time medical_director : Nat) :
    Except Error Unit × ContractState :=
  match s.auth_requests auth_request_id with
  | none => (.error .AuthRequestNotFound, s)
  | some req =>
    match s.peer_to_peer auth_request_id with
    | none => (.error .AuthRequestNotFound, s)
    | some p2p =>
      let p2p :=
        { p2p with
          scheduled_time := some scheduled_time
          medical_director := some medical_director }
      let s1 := { s with peer_to_peer := store_set s.peer_to_peer auth_request_id p2p }
      (.ok (),
        { s1 with
          auth_requests :=
            store_set s1.auth_requests auth_request_id { req with status := .PeerToPeerScheduled } })

/-- appeal_denial (lib.rs lines 245-304).  Only Denied or Appealed requests can
be appealed; levels are capped at MAX_APPEAL_LEVEL and must strictly increase
over the last recorded appeal; on success the appeal is stored by its own id
and appended to the request's appeal list, and the request becomes Appealed. -/
def appeal_denial (s : ContractState) (now : Nat)
    (auth_request_id provider_id appeal_level appeal_reason_hash : Nat)
    (additional_evidence_hash : Option Nat) :
    Except Error Nat × ContractState :=
  match s.auth_requests auth_request_id with
  | none => (.error .AuthRequestNotFound, s)
  | some req =>
    if req.provider_id ≠ provider_id then
      (.error .Unauthorized, s)
    else
      match req.status with
      | .Denied | .Appealed =>
        if appeal_level > MAX_APPEAL_LEVEL then
          (.error .MaxAppealLevelReached, s)
        else
          let existing := s.appeals_for_auth auth_request_id
          if level_not_increasing existing appeal_level then
            (.error .MaxAppealLevelReached, s)
          else
            let appeal_id := s.appeal_counter + 1
            let appeal : Appeal :=
              { appeal_id := appeal_id
                auth_request_id := auth_request_id
                provider_id := provider_id
                appeal_level := appeal_level
                appeal_reason_hash := appeal_reason_hash
                additional_evidence_hash := additional_evidence_hash
                submitted_at := now }
            (.ok appeal_id,
              { s with
                appeal_counter := appeal_id
                appeal_by_id := store_set s.appeal_by_id appeal_id appeal
                appeals_for_auth :=
                  list_set s.appeals_for_auth auth_request_id (existing ++ [appeal])
                auth_requests :=
                  store_set s.auth_requests auth_request_id { req with status := .Appealed } })
      | _ => (.error .NotDenied, s)

/-- expedite_authorization (lib.rs lines 307-338). -/
def expedite_authorization (s : ContractState)
    (auth_request_id provider_id : Nat) (urgency_justification : String)
    (expected_service_date : Nat) :
    Except Error Unit × ContractState :=
  match s.auth_requests auth_request_id with
  | none => (.error .AuthRequestNotFound, s)
  | some req =>
    if req.provider_id ≠ provider_id then
      (.error .Unauthorized, s)
    else
      match req.status with
      | .Submitted | .UnderReview | .MoreInfoNeeded =>
        (.ok (),
          { s with
            auth_requests :=
              store_set s.auth_requests auth_request_id { req with expedited := true } })
      | _ => (.error .InvalidStatusTransition, s)

/-- extend_authorization (lib.rs lines 341-377).  Records an ExtensionRequest
(last write wins); does not alter the approved ceiling. -/
def extend_authorization (s : ContractState) (now : Nat)
    (auth_request_id provider_id : Nat) (extension_reason : String)
    (requested_additional_units : Nat) :
    Except Error Unit × ContractState :=
  match s.auth_requests auth_request_id with
  | none => (.error .AuthRequestNotFound, s)
  | some req =>
    if req.provider_id ≠ provider_id then
      (.error .Unauthorized, s)
    else if req.status ≠ .Approved then
      (.error .NotApproved, s)
    else
      let ext : ExtensionRequest :=
        { auth_request_id := auth_request_id
          provider_id := provider_id
          extension_reason := extension_reason
          requested_additional_units := requested_additional_units
          requested_at := now }
      (.ok (), { s with extensions := store_set s.extensions auth_request_id ext })

/-- track_authorization_usage (lib.rs lines 380-435).  On expiry the status
flip to Expired is saved before the error is returned (the one partial-commit
path); the ceiling check happens before any mutation; on success units_used is
incremented and a UsageRecord appended. -/
def track_authorization_usage (s : ContractState) (now : Nat)
    (auth_request_id provider_id units_used service_date : Nat) :
    Except Error Unit × ContractState :=
  match s.auth_requests auth_request_id with
  | none => (.error .AuthRequestNotFound, s)
  | some req =>
    if req.provider_id ≠ provider_id then
      (.error .Unauthorized, s)
    else if req.status ≠ .Approved then
      (.error .NotApproved, s)
    else if is_past_valid_until req now then
      (.error .AuthorizationExpired,
        { s with
          auth_requests :=
            store_set s.auth_requests auth_request_id { req with status := .Expired } })
    else if exceeds_units req units_used then
      (.error .ExceedsApprovedUnits, s)
    else
      let req := { req with units_used := req.units_used + units_used }
      let s1 := { s with auth_requests := store_set s.auth_requests auth_request_id req }
      let record : UsageRecord :=
        { auth_request_id := auth_request_id
          provider_id := provider_id
          units_used := units_used
          service_date := service_date
          recorded_at := now }
      (.ok (),
        { s1 with
          usage_records :=
            list_set s1.usage_records auth_request_id
              (s1.usage_records auth_request_id ++ [record]) })

/-- get_authorization_status (lib.rs lines 438-462).  Read-only projection. -/
def get_authorization_status (s : ContractState)
    (auth_request_id requester : Nat) :
    Except Error AuthorizationInfo × ContractState :=
  match s.auth_requests auth_request_id with
  | none => (.error .AuthRequestNotFound, s)
  | some req =>
    (.ok
      { auth_request_id := req.auth_request_id
        provider_id := req.provider_id
        patient_id := req.patient_id
        requested_service := req.requested_service
        status := req.status
        decision := req.decision
        approved_units := req.approved_units
        units_used := req.units_used
        valid_from := req.valid_from
        valid_until := req.valid_until
        submitted_at := req.submitted_at
        decision_date := req.decision_date }, s)

/-- One externally invoked contract call, with the caller already
authenticated and the ledger timestamp materialised where the operation
reads the clock. -/
inductive Op where
  | submit (now provider_id patient_id policy_id : Nat)
      (authorization_type requested_service : String)
      (service_codes diagnosis_codes : List String)
      (clinical_justification_hash : Nat) (urgency : String)
  | attach (now auth_request_id provider_id document_hash : Nat) (document_type : String)
  | review (now auth_request_id reviewer_id : Nat) (decision : String)
      (approved_units valid_from valid_until : Option Nat) (review_notes : String)
  | request_p2p (auth_request_id provider_id requested_date : Nat)
      (preferred_times : List String)
  | schedule_p2p (auth_request_id insurance_admin scheduled_time medical_director : Nat)
  | appeal (now auth_request_id provider_id appeal_level appeal_reason_hash : Nat)
      (additional_evidence_hash : Option Nat)
  | expedite (auth_request_id provider_id : Nat) (urgency_justification : String)
      (expected_service_date : Nat)
  | extend (now auth_request_id provider_id : Nat) (extension_reason : String)
      (requested_additional_units : Nat)
  | track (now auth_request_id provider_id units_used service_date : Nat)
  | get_status (auth_request_id requester : Nat)
deriving DecidableEq

/-- Effect of one call on storage (the result value is dropped). -/
def step (s : ContractState) (op : Op) : ContractState :=
  match op with
  | .submit now pr pa po ty sv sc dc h u =>
    (submit_prior_authorization s now pr pa po ty sv sc dc h u).2
  | .attach now id pr h ty => (attach_supporting_documentation s now id pr h ty).2
  | .review now id rv d au vf vu ns => (review_authorization s now id rv d au vf vu ns).2
  | .request_p2p id pr rd ts => (request_peer_to_peer s id pr rd ts).2
  | .schedule_p2p id ia st md => (schedule_peer_to_peer s id ia st md).2
  | .appeal now id pr lv h ev => (appeal_denial s now id pr lv h ev).2
  | .expedite id pr j ed => (expedite_authorization s id pr j ed).2
  | .extend now id pr rs u => (extend_authorization s now id pr rs u).2
  | .track now id pr u sd => (track_authorization_usage s now id pr u sd).2
  | .get_status id rq => (get_authorization_status s id rq).2

/-- Storage after running a call sequence from empty storage. -/
def run (ops : List Op) : ContractState :=
  ops.foldl step initial_state

/-- A storage state is reachable when some call sequence produces it from
empty storage. -/
def Reachable (s : ContractState) : Prop :=
  ∃ ops : List Op, run ops = s

/-- Every stored auth request id is at most the id counter (holds in every
reachable state; it is what makes fresh ids fresh). -/
def counter_dominates (s : ContractState) : Prop :=
  ∀ j r, s.auth_requests j = some r → j ≤ s.auth_counter

/-- Ids returned by the successful submit calls of a run, in call order. -/
def submit_ids (s : ContractState) : List Op → List Nat
  | [] => []
  | op :: rest =>
    match op with
    | .submit now pr pa po ty sv sc dc h u =>
      match submit_prior_authorization s now pr pa po ty sv sc dc h u with
      | (.ok id, s') => id :: submit_ids s' rest
      | (.error _, s') => submit_ids s' rest
    | _ => submit_ids (step s op) rest

/-- Ids returned by the successful appeal_denial calls of a run, in call order. -/
def appeal_ids (s : ContractState) : List Op → List Nat
  | [] => []
  | op :: rest =>
    match op with
    | .appeal now id pr lv h ev =>
      match appeal_denial s now id pr lv h ev with
      | (.ok aid, s') => aid :: appeal_ids s' rest
      | (.error _, s') => appeal_ids s' rest
    | _ => appeal_ids (step s op) rest

/-- Placeholder request used only as the getD default of req_at. -/
def req0 : AuthorizationRequest :=
  { auth_request_id := 0
    provider_id := 0
    patient_id := 0
    policy_id := 0
    authorization_type := ""
    requested_service := ""
    service_codes := []
    diagnosis_codes := []
    clinical_justification_hash := 0
    urgency := ""
    status := .Submitted
    decision := none
    approved_units := none
    units_used := 0
    valid_from := none
    valid_until := none
    submitted_at := 0
    decision_date := none
    expedited := false }

/-- The stored request under an id (defaulting to req0 on a miss); used to
name concrete stored records in closed statements. -/
def req_at (s : ContractState) (id : Nat) : AuthorizationRequest :=
  (s.auth_requests id).getD req0

/-- A concrete submission by provider 1 for patient 2 at time 0. -/
def op_submit1 : Op :=
  .submit 0 1 2 1001 "medication" "insulin" ["CPT99213"] ["E11.9"] 9 "routine"

/-- submit then deny: request 1 ends in status Denied with no appeals. -/
def denied_ops : List Op :=
  [op_submit1, .review 1 1 7 "denied" none none none "notes"]

/-- Storage after denied_ops. -/
def denied_state : ContractState := run denied_ops

/-- submit, deny, then a level-1 appeal: request 1 ends in status Appealed. -/
def appealed_ops : List Op :=
  denied_ops ++ [.appeal 2 1 1 1 5 none]

/-- Storage after appealed_ops. -/
def appealed_state : ContractState := run appealed_ops

/-- submit, request peer-to-peer, approve with valid_until 10, then track at
time 20: the lazy expiry check flips request 1 to Expired, and the
peer-to-peer record from the second call is still present. -/
def expired_ops : List Op :=
  [op_submit1, .request_p2p 1 1 2000 ["Mon 9am"],
   .review 1 1 7 "approved" (some 10) (some 0) (some 10) "ok",
   .track 20 1 1 1 15]

/-- Storage after expired_ops. -/
def expired_state : ContractState := run expired_ops

/-- submit, request peer-to-peer, approve with ceiling 10, use 5 units,
re-enter review via schedule_peer_to_peer, and re-approve with ceiling 3:
request 1 ends with units_used = 5 above approved_units = some 3. -/
def ceiling_ops : List Op :=
  [op_submit1, .request_p2p 1 1 2000 ["Mon 9am"],
   .review 1 1 7 "approved" (some 10) none none "ok",
   .track 2 1 1 5 1,
   .schedule_p2p 1 8 3000 9,
   .review 3 1 7 "approved" (some 3) none none "ok"]

/-- Storage after ceiling_ops. -/
def ceiling_state : ContractState := run ceiling_ops

/-- submit then approve with valid_from = some 5 but valid_until = none:
request 1 ends with a half-set validity window. -/
def half_window_ops : List Op :=
  [op_submit1, .review 1 1 7 "approved" none (some 5) none "ok"]

/-- Storage after half_window_ops. -/
def half_window_state : ContractState := run half_window_ops

/-- submit then approve with ceiling 10 and validity window [0, 10]. -/
def approved_windowed_ops : List Op :=
  [op_submit1, .review 1 1 7 "approved" (some 10) (some 0) (some 10) "ok"]

/-- Storage after approved_windowed_ops. -/
def approved_windowed_state : ContractState := run approved_windowed_ops

/-- submit, approve with ceiling 10 and no window, then use 5 units. -/
def used_five_ops : List Op :=
  [op_submit1, .review 1 1 7 "approved" (some 10) none none "ok",
   .track 2 1 1 5 1]

/-- Storage after used_five_ops. -/
def used_five_state : ContractState := run used_five_ops

/-- submit then approve with no unit ceiling and no window. -/
def no_ceiling_ops : List Op :=
  [op_submit1, .review 1 1 7 "approved" none none none "ok"]

/-- Storage after no_ceiling_ops. -/
def no_ceiling_state : ContractState := run no_ceiling_ops

/-- Storage holding just the one freshly submitted request. -/
def submitted_state : ContractState := run [op_submit1]

/-- The approve-with-half-window review call used against submitted_state. -/
def half_window_review : Op := .review 1 1 7 "approved" none (some 5) none "ok"

/-- The Appeal record appeal_denial constructs on success (lib.rs lines 283-291),
with the id freshly allocated from the appeal counter. -/
def new_appeal (s : ContractState) (now auth_request_id provider_id appeal_level appeal_reason_hash : Nat)
    (additional_evidence_hash : Option Nat) : Appeal :=
  { appeal_id := s.appeal_counter + 1
    auth_request_id := auth_request_id
    provider_id := provider_id
    appeal_level := appeal_level
    appeal_reason_hash := appeal_reason_hash
    additional_evidence_hash := additional_evidence_hash
    submitted_at := now }

/-
  Theorems.
-/

/-- Helper: reading a store key after a pointwise write. -/
theorem store_set_lookup {α : Type} (m : Nat → Option α) (k : Nat) (v : α) (j : Nat) :
    store_set m k v j = if j = k then some v else m j := rfl

/-- Helper: full case analysis of appeal_denial for an existing request owned
by the caller, following the source's check order (status, level cap,
level monotonicity, then the success writes). -/
theorem appeal_cases (s : ContractState)
    (now auth_request_id provider_id appeal_level appeal_reason_hash : Nat)
    (additional_evidence_hash : Option Nat) (req : AuthorizationRequest)
    (hreq : s.auth_requests auth_request_id = some req)
    (hprov : req.provider_id = provider_id) :
    (req.status ≠ .Denied ∧ req.status ≠ .Appealed →
      appeal_denial s now auth_request_id provider_id appeal_level appeal_reason_hash
          additional_evidence_hash
        = (.error .NotDenied, s)) ∧
    ((req.status = .Denied ∨ req.status = .Appealed) →
      (MAX_APPEAL_LEVEL < appeal_level →
        appeal_denial s now auth_request_id provider_id appeal_level appeal_reason_hash
            additional_evidence_hash
          = (.error .MaxAppealLevelReached, s)) ∧
      (appeal_level ≤ MAX_APPEAL_LEVEL →
        level_not_increasing (s.appeals_for_auth auth_request_id) appeal_level = true →
        appeal_denial s now auth_request_id provider_id appeal_level appeal_reason_hash
            additional_evidence_hash
          = (.error .MaxAppealLevelReached, s)) ∧
      (appeal_level ≤ MAX_APPEAL_LEVEL →
        level_not_increasing (s.appeals_for_auth auth_request_id) appeal_level = false →
        (appeal_denial s now auth_request_id provider_id appeal_level appeal_reason_hash
            additional_evidence_hash).1
          = .ok (s.appeal_counter + 1) ∧
        (appeal_denial s now auth_request_id provider_id appeal_level appeal_reason_hash
            additional_evidence_hash).2.appeal_by_id (s.appeal_counter + 1)
          = some (new_appeal s now auth_request_id provider_id appeal_level appeal_reason_hash
              additional_evidence_hash) ∧
        (appeal_denial s now auth_request_id provider_id appeal_level appeal_reason_hash
            additional_evidence_hash).2.appeals_for_auth auth_request_id
          = s.appeals_for_auth auth_request_id ++
              [new_appeal s now auth_request_id provider_id appeal_level appeal_reason_hash
                additional_evidence_hash] ∧
        (appeal_denial s now auth_request_id provider_id appeal_level appeal_reason_hash
            additional_evidence_hash).2.auth_requests auth_request_id
          = some { req with status := .Appealed })) := by
  constructor
  · intro h
    cases hst : req.status <;>
      simp [appeal_denial, hreq, hprov, hst] <;>
      simp [hst] at h
  · intro hden
    have hreduce :
        appeal_denial s now auth_request_id provider_id appeal_level appeal_reason_hash
            additional_evidence_hash
          = (if appeal_level > MAX_APPEAL_LEVEL then (.error .MaxAppealLevelReached, s)
             else if level_not_increasing (s.appeals_for_auth auth_request_id) appeal_level then
               (.error .MaxAppealLevelReached, s)
             else
               (.ok (s.appeal_counter + 1),
                { s with
                  appeal_counter := s.appeal_counter + 1
                  appeal_by_id := store_set s.appeal_by_id (s.appeal_counter + 1)
                    (new_appeal s now auth_request_id provider_id appeal_level
                      appeal_reason_hash additional_evidence_hash)
                  appeals_for_auth := list_set s.appeals_for_auth auth_request_id
                    (s.appeals_for_auth auth_request_id ++
                      [new_appeal s now auth_request_id provider_id appeal_level
                        appeal_reason_hash additional_evidence_hash])
                  auth_requests := store_set s.auth_requests auth_request_id
                    { req with status := .Appealed } })) := by
      rcases hden with hst | hst <;> simp [appeal_denial, hreq, hprov, hst, new_appeal]
    refine ⟨?_, ?_, ?_⟩
    · intro hlv
      rw [hreduce, if_pos hlv]
    · intro hlv hmono
      rw [hreduce, if_neg (by omega), if_pos hmono]
    · intro hlv hmono
      rw [hreduce, if_neg (by omega), if_neg (by simp [hmono])]
      refine ⟨rfl, ?_, ?_, ?_⟩ <;> simp [store_set, list_set]

/-- Helper: full case analysis of track_authorization_usage for an existing
Approved request owned by the caller: the expiry path commits the Expired
status while failing, the ceiling path fails without any write, the success
path increments units_used and appends a UsageRecord. -/
theorem track_usage_cases (s : ContractState)
    (now auth_request_id provider_id units service_date : Nat)
    (req : AuthorizationRequest)
    (hreq : s.auth_requests auth_request_id = some req)
    (hprov : req.provider_id = provider_id)
    (hst : req.status = .Approved) :
    (is_past_valid_until req now = true →
      track_authorization_usage s now auth_request_id provider_id units service_date
        = (.error .AuthorizationExpired,
           { s with
             auth_requests := store_set s.auth_requests auth_request_id
               { req with status := .Expired } })) ∧
    (is_past_valid_until req now = false → exceeds_units req units = true →
      track_authorization_usage s now auth_request_id provider_id units service_date
        = (.error .ExceedsApprovedUnits, s)) ∧
    (is_past_valid_until req now = false → exceeds_units req units = false →
      track_authorization_usage s now auth_request_id provider_id units service_date
        = (.ok (),
           { s with
             auth_requests := store_set s.auth_requests auth_request_id
               { req with units_used := req.units_used + units }
             usage_records := list_set s.usage_records auth_request_id
               (s.usage_records auth_request_id ++
                 [{ auth_request_id := auth_request_id
                    provider_id := provider_id
                    units_used := units
                    service_date := service_date
                    recorded_at := now }]) })) := by
  refine ⟨?_, ?_, ?_⟩
  · intro hpast
    simp [track_authorization_usage, hreq, hprov, hst, hpast]
  · intro hpast hex
    simp [track_authorization_usage, hreq, hprov, hst, hpast, hex]
  · intro hpast hex
    simp [track_authorization_usage, hreq, hprov, hst, hpast, hex]

/-- Helper: a successful lookup after a pointwise write is either the written
value (at the written key) or an old value (elsewhere). -/
theorem store_set_target {α : Type} {m : Nat → Option α} {k j : Nat} {v r' : α}
    (h : store_set m k v j = some r') :
    (j = k ∧ r' = v) ∨ (j ≠ k ∧ m j = some r') := by
  by_cases hjk : j = k
  · simp [store_set, hjk] at h
    exact Or.inl ⟨hjk, h.symm⟩
  · simp [store_set, hjk] at h
    exact Or.inr ⟨hjk, h⟩

/-- Helper: two some-lookups of the same key agree. -/
theorem lookup_same {α : Type} {m : Nat → Option α} {j : Nat} {r r' : α}
    (h1 : m j = some r) (h2 : m j = some r') : r' = r := by
  rw [h1] at h2
  injection h2 with h
  exact h.symm

/-- Helper: submit never touches an already-stored request (its fresh id is
above the counter, which dominates every stored id). -/
theorem submit_requests_frame (s : ContractState) (now pr pa po : Nat) (ty sv : String)
    (sc dc : List String) (h : Nat) (u : String)
    (hdom : counter_dominates s) (id : Nat) (r r' : AuthorizationRequest)
    (hr : s.auth_requests id = some r)
    (hr' : (submit_prior_authorization s now pr pa po ty sv sc dc h u).2.auth_requests id
      = some r') :
    r' = r := by
  have hle := hdom id r hr
  simp only [submit_prior_authorization] at hr'
  rcases store_set_target hr' with ⟨hjk, _⟩ | ⟨_, hm⟩
  · omega
  · exact lookup_same hr hm

/-- Helper: attach_supporting_documentation never touches the request store. -/
theorem attach_frame (s : ContractState) (now aid pr h : Nat) (ty : String) :
    (attach_supporting_documentation s now aid pr h ty).2.auth_requests = s.auth_requests := by
  unfold attach_supporting_documentation
  cases hh : s.auth_requests aid
  · rfl
  · simp only
    split
    · rfl
    · rfl

/-- Helper: extend_authorization never touches the request store. -/
theorem extend_frame (s : ContractState) (now aid pr : Nat) (rs : String) (u : Nat) :
    (extend_authorization s now aid pr rs u).2.auth_requests = s.auth_requests := by
  unfold extend_authorization
  cases hh : s.auth_requests aid
  · rfl
  · simp only
    split
    · rfl
    · split
      · rfl
      · rfl

/-- Helper: get_authorization_status never touches storage at all. -/
theorem get_status_state (s : ContractState) (aid rq : Nat) :
    (get_authorization_status s aid rq).2 = s := by
  unfold get_authorization_status
  cases hh : s.auth_requests aid
  · rfl
  · rfl

/-- Helper: everything review_authorization can do to a stored request: leave
it unchanged, or — when it is the reviewed request, currently in one of the
four reviewable statuses — rewrite it according to the decision tag. -/
theorem review_requests_cases (s : ContractState) (now aid rv : Nat) (d : String)
    (au vf vu : Option Nat) (ns : String) (id : Nat) (r r' : AuthorizationRequest)
    (hr : s.auth_requests id = some r)
    (hr' : (review_authorization s now aid rv d au vf vu ns).2.auth_requests id = some r') :
    r' = r ∨
    (aid = id ∧
     (r.status = .Submitted ∨ r.status = .UnderReview ∨ r.status = .MoreInfoNeeded ∨
      r.status = .PeerToPeerScheduled) ∧
     ((d = "approved" ∧
       r' = { r with status := .Approved, approved_units := au, valid_from := vf, valid_until := vu, decision_date := some now, decision := some d }) ∨
      (d = "denied" ∧
       r' = { r with status := .Denied, decision_date := some now, decision := some d }) ∨
      (d = "more_info_needed" ∧
       r' = { r with status := .MoreInfoNeeded, decision := some d }))) := by
  rcases hh : s.auth_requests aid with _ | req
  · simp only [review_authorization, hh] at hr'
    exact Or.inl (lookup_same hr hr')
  · simp only [review_authorization, hh] at hr'
    cases hst : req.status <;> simp only [hst] at hr' <;>
      try exact Or.inl (lookup_same hr hr')
    all_goals (
      by_cases hd1 : d = "approved"
      · rw [if_pos hd1] at hr'
        dsimp only at hr'
        rcases store_set_target hr' with ⟨hjk, hv⟩ | ⟨_, hm⟩
        · subst hjk
          obtain rfl := lookup_same hh hr
          refine Or.inr ⟨rfl, ?_, Or.inl ⟨hd1, ?_⟩⟩
          · simp [hst]
          · exact hv
        · exact Or.inl (lookup_same hr hm)
      · by_cases hd2 : d = "denied"
        · rw [if_neg hd1, if_pos hd2] at hr'
          dsimp only at hr'
          rcases store_set_target hr' with ⟨hjk, hv⟩ | ⟨_, hm⟩
          · subst hjk
            obtain rfl := lookup_same hh hr
            refine Or.inr ⟨rfl, ?_, Or.inr (Or.inl ⟨hd2, ?_⟩)⟩
            · simp [hst]
            · exact hv
          · exact Or.inl (lookup_same hr hm)
        · by_cases hd3 : d = "more_info_needed"
          · rw [if_neg hd1, if_neg hd2, if_pos hd3] at hr'
            dsimp only at hr'
            rcases store_set_target hr' with ⟨hjk, hv⟩ | ⟨_, hm⟩
            · subst hjk
              obtain rfl := lookup_same hh hr
              refine Or.inr ⟨rfl, ?_, Or.inr (Or.inr ⟨hd3, ?_⟩)⟩
              · simp [hst]
              · exact hv
            · exact Or.inl (lookup_same hr hm)
          · rw [if_neg hd1, if_neg hd2, if_neg hd3] at hr'
            exact Or.inl (lookup_same hr hr'))

/-- Helper: everything request_peer_to_peer can do to a stored request. -/
theorem p2p_requests_cases (s : ContractState) (aid pr rd : Nat) (ts : List String)
    (id : Nat) (r r' : AuthorizationRequest)
    (hr : s.auth_requests id = some r)
    (hr' : (request_peer_to_peer s aid pr rd ts).2.auth_requests id = some r') :
    r' = r ∨
    (aid = id ∧ r.provider_id = pr ∧ (r.status = .Submitted ∨ r.status = .MoreInfoNeeded) ∧
     r' = { r with status := .UnderReview }) := by
  rcases hh : s.auth_requests aid with _ | req
  · simp only [request_peer_to_peer, hh] at hr'
    exact Or.inl (lookup_same hr hr')
  · simp only [request_peer_to_peer, hh] at hr'
    by_cases hp : req.provider_id ≠ pr
    · rw [if_pos hp] at hr'
      exact Or.inl (lookup_same hr hr')
    · rw [if_neg hp] at hr'
      rcases hp2 : s.peer_to_peer aid with _ | p
      · simp only [hp2] at hr'
        cases hst : req.status <;> simp only [hst] at hr' <;>
          try exact Or.inl (lookup_same hr hr')
        all_goals (
          try dsimp only at hr'
          rcases store_set_target hr' with ⟨hjk, hv⟩ | ⟨_, hm⟩
          · subst hjk
            obtain rfl := lookup_same hh hr
            exact Or.inr ⟨rfl, not_ne_iff.mp hp, by simp [hst], hv⟩
          · exact Or.inl (lookup_same hr hm))
      · simp only [hp2] at hr'
        exact Or.inl (lookup_same hr hr')

/-- Helper: everything schedule_peer_to_peer can do to a stored request:
leave it unchanged, or — whenever a peer-to-peer record exists — rewrite the
target request's status to PeerToPeerScheduled, with no guard on its current
status. -/
theorem schedule_requests_cases (s : ContractState) (aid ia st md : Nat)
    (id : Nat) (r r' : AuthorizationRequest)
    (hr : s.auth_requests id = some r)
    (hr' : (schedule_peer_to_peer s aid ia st md).2.auth_requests id = some r') :
    r' = r ∨ (aid = id ∧ r' = { r with status := .PeerToPeerScheduled }) := by
  rcases hh : s.auth_requests aid with _ | req
  · simp only [schedule_peer_to_peer, hh] at hr'
    exact Or.inl (lookup_same hr hr')
  · simp only [schedule_peer_to_peer, hh] at hr'
    rcases hp2 : s.peer_to_peer aid with _ | p
    · simp only [hp2] at hr'
      exact Or.inl (lookup_same hr hr')
    · simp only [hp2] at hr'
      try dsimp only at hr'
      rcases store_set_target hr' with ⟨hjk, hv⟩ | ⟨_, hm⟩
      · subst hjk
        obtain rfl := lookup_same hh hr
        exact Or.inr ⟨rfl, hv⟩
      · exact Or.inl (lookup_same hr hm)

/-- Helper: everything appeal_denial can do to a stored request. -/
theorem appeal_requests_cases (s : ContractState) (now aid pr lv h : Nat) (ev : Option Nat)
    (id : Nat) (r r' : AuthorizationRequest)
    (hr : s.auth_requests id = some r)
    (hr' : (appeal_denial s now aid pr lv h ev).2.auth_requests id = some r') :
    r' = r ∨
    (aid = id ∧ r.provider_id = pr ∧ (r.status = .Denied ∨ r.status = .Appealed) ∧
     r' = { r with status := .Appealed }) := by
  rcases hh : s.auth_requests aid with _ | req
  · simp only [appeal_denial, hh] at hr'
    exact Or.inl (lookup_same hr hr')
  · simp only [appeal_denial, hh] at hr'
    by_cases hp : req.provider_id ≠ pr
    · rw [if_pos hp] at hr'
      exact Or.inl (lookup_same hr hr')
    · rw [if_neg hp] at hr'
      cases hst : req.status <;> simp only [hst] at hr' <;>
        try exact Or.inl (lookup_same hr hr')
      all_goals (
        by_cases hlv : lv > MAX_APPEAL_LEVEL
        · rw [if_pos hlv] at hr'
          exact Or.inl (lookup_same hr hr')
        · rw [if_neg hlv] at hr'
          by_cases hmono : level_not_increasing (s.appeals_for_auth aid) lv = true
          · rw [if_pos hmono] at hr'
            exact Or.inl (lookup_same hr hr')
          · rw [if_neg hmono] at hr'
            try dsimp only at hr'
            rcases store_set_target hr' with ⟨hjk, hv⟩ | ⟨_, hm⟩
            · subst hjk
              obtain rfl := lookup_same hh hr
              exact Or.inr ⟨rfl, not_ne_iff.mp hp, by simp [hst], hv⟩
            · exact Or.inl (lookup_same hr hm))

/-- Helper: everything expedite_authorization can do to a stored request. -/
theorem expedite_requests_cases (s : ContractState) (aid pr : Nat) (j : String) (ed : Nat)
    (id : Nat) (r r' : AuthorizationRequest)
    (hr : s.auth_requests id = some r)
    (hr' : (expedite_authorization s aid pr j ed).2.auth_requests id = some r') :
    r' = r ∨
    (aid = id ∧ r.provider_id = pr ∧
     (r.status = .Submitted ∨ r.status = .UnderReview ∨ r.status = .MoreInfoNeeded) ∧
     r' = { r with expedited := true }) := by
  rcases hh : s.auth_requests aid with _ | req
  · simp only [expedite_authorization, hh] at hr'
    exact Or.inl (lookup_same hr hr')
  · simp only [expedite_authorization, hh] at hr'
    by_cases hp : req.provider_id ≠ pr
    · rw [if_pos hp] at hr'
      exact Or.inl (lookup_same hr hr')
    · rw [if_neg hp] at hr'
      cases hst : req.status <;> simp only [hst] at hr' <;>
        try exact Or.inl (lookup_same hr hr')
      all_goals (
        try dsimp only at hr'
        rcases store_set_target hr' with ⟨hjk, hv⟩ | ⟨_, hm⟩
        · subst hjk
          obtain rfl := lookup_same hh hr
          refine Or.inr ⟨rfl, not_ne_iff.mp hp, by simp [hst], ?_⟩
          rw [hst]
          exact hv
        · exact Or.inl (lookup_same hr hm))

/-- Helper: everything track_authorization_usage can do to a stored request:
leave it unchanged, flip the target Approved request to Expired (lazy expiry),
or add the call's units to its units_used. -/
theorem track_requests_cases (s : ContractState) (now aid pr u sd : Nat)
    (id : Nat) (r r' : AuthorizationRequest)
    (hr : s.auth_requests id = some r)
    (hr' : (track_authorization_usage s now aid pr u sd).2.auth_requests id = some r') :
    r' = r ∨
    (aid = id ∧ r.provider_id = pr ∧ r.status = .Approved ∧
     (r' = { r with status := .Expired } ∨ r' = { r with units_used := r.units_used + u })) := by
  rcases hh : s.auth_requests aid with _ | req
  · simp only [track_authorization_usage, hh] at hr'
    exact Or.inl (lookup_same hr hr')
  · simp only [track_authorization_usage, hh] at hr'
    by_cases hp : req.provider_id ≠ pr
    · rw [if_pos hp] at hr'
      exact Or.inl (lookup_same hr hr')
    · rw [if_neg hp] at hr'
      by_cases hst : req.status ≠ .Approved
      · rw [if_pos hst] at hr'
        exact Or.inl (lookup_same hr hr')
      · rw [if_neg hst] at hr'
        by_cases hpast : is_past_valid_until req now = true
        · rw [if_pos hpast] at hr'
          try dsimp only at hr'
          rcases store_set_target hr' with ⟨hjk, hv⟩ | ⟨_, hm⟩
          · subst hjk
            obtain rfl := lookup_same hh hr
            exact Or.inr ⟨rfl, not_ne_iff.mp hp, not_ne_iff.mp hst, Or.inl hv⟩
          · exact Or.inl (lookup_same hr hm)
        · rw [if_neg hpast] at hr'
          by_cases hex : exceeds_units req u = true
          · rw [if_pos hex] at hr'
            exact Or.inl (lookup_same hr hr')
          · rw [if_neg hex] at hr'
            try dsimp only at hr'
            rcases store_set_target hr' with ⟨hjk, hv⟩ | ⟨_, hm⟩
            · subst hjk
              obtain rfl := lookup_same hh hr
              exact Or.inr ⟨rfl, not_ne_iff.mp hp, not_ne_iff.mp hst, Or.inr hv⟩
            · exact Or.inl (lookup_same hr hm)

/-- Helper: attach preserves both counters and either leaves the request
store untouched or rewrites one already-present key. -/
theorem attach_shape (s : ContractState) (now aid pr h : Nat) (ty : String) :
    (attach_supporting_documentation s now aid pr h ty).2.auth_counter = s.auth_counter ∧
    (attach_supporting_documentation s now aid pr h ty).2.appeal_counter = s.appeal_counter ∧
    ((attach_supporting_documentation s now aid pr h ty).2.auth_requests = s.auth_requests ∨
     ∃ req v, s.auth_requests aid = some req ∧
       (attach_supporting_documentation s now aid pr h ty).2.auth_requests
         = store_set s.auth_requests aid v) := by
  unfold attach_supporting_documentation
  rcases hh : s.auth_requests aid with _ | req
  · dsimp only
    exact ⟨rfl, rfl, Or.inl rfl⟩
  · dsimp only
    split
    · exact ⟨rfl, rfl, Or.inl rfl⟩
    · exact ⟨rfl, rfl, Or.inl rfl⟩

/-- Helper: review preserves both counters and either leaves the request
store untouched or rewrites one already-present key. -/
theorem review_shape (s : ContractState) (now aid rv : Nat) (d : String)
    (au vf vu : Option Nat) (ns : String) :
    (review_authorization s now aid rv d au vf vu ns).2.auth_counter = s.auth_counter ∧
    (review_authorization s now aid rv d au vf vu ns).2.appeal_counter = s.appeal_counter ∧
    ((review_authorization s now aid rv d au vf vu ns).2.auth_requests = s.auth_requests ∨
     ∃ req v, s.auth_requests aid = some req ∧
       (review_authorization s now aid rv d au vf vu ns).2.auth_requests
         = store_set s.auth_requests aid v) := by
  unfold review_authorization
  rcases hh : s.auth_requests aid with _ | req
  · dsimp only
    exact ⟨rfl, rfl, Or.inl rfl⟩
  · dsimp only
    cases req.status <;>
      first
        | exact ⟨rfl, rfl, Or.inl rfl⟩
        | ((repeat' split) <;>
            first
              | exact ⟨rfl, rfl, Or.inl rfl⟩
              | exact ⟨rfl, rfl, Or.inr ⟨req, _, rfl, rfl⟩⟩)

/-- Helper: request_peer_to_peer preserves both counters and either leaves
the request store untouched or rewrites one already-present key. -/
theorem request_p2p_shape (s : ContractState) (aid pr rd : Nat) (ts : List String) :
    (request_peer_to_peer s aid pr rd ts).2.auth_counter = s.auth_counter ∧
    (request_peer_to_peer s aid pr rd ts).2.appeal_counter = s.appeal_counter ∧
    ((request_peer_to_peer s aid pr rd ts).2.auth_requests = s.auth_requests ∨
     ∃ req v, s.auth_requests aid = some req ∧
       (request_peer_to_peer s aid pr rd ts).2.auth_requests
         = store_set s.auth_requests aid v) := by
  unfold request_peer_to_peer
  rcases hh : s.auth_requests aid with _ | req
  · dsimp only
    exact ⟨rfl, rfl, Or.inl rfl⟩
  · dsimp only
    (repeat' split) <;>
      first
        | exact ⟨rfl, rfl, Or.inl rfl⟩
        | exact ⟨rfl, rfl, Or.inr ⟨req, _, rfl, rfl⟩⟩

/-- Helper: schedule_peer_to_peer preserves both counters and either leaves
the request store untouched or rewrites one already-present key. -/
theorem schedule_p2p_shape (s : ContractState) (aid ia st md : Nat) :
    (schedule_peer_to_peer s aid ia st md).2.auth_counter = s.auth_counter ∧
    (schedule_peer_to_peer s aid ia st md).2.appeal_counter = s.appeal_counter ∧
    ((schedule_peer_to_peer s aid ia st md).2.auth_requests = s.auth_requests ∨
     ∃ req v, s.auth_requests aid = some req ∧
       (schedule_peer_to_peer s aid ia st md).2.auth_requests
         = store_set s.auth_requests aid v) := by
  unfold schedule_peer_to_peer
  rcases hh : s.auth_requests aid with _ | req
  · dsimp only
    exact ⟨rfl, rfl, Or.inl rfl⟩
  · dsimp only
    (repeat' split) <;>
      first
        | exact ⟨rfl, rfl, Or.inl rfl⟩
        | exact ⟨rfl, rfl, Or.inr ⟨req, _, rfl, rfl⟩⟩

/-- Helper: appeal_denial preserves the auth counter and either leaves the
request store untouched or rewrites one already-present key. -/
theorem appeal_shape (s : ContractState) (now aid pr lv h : Nat) (ev : Option Nat) :
    (appeal_denial s now aid pr lv h ev).2.auth_counter = s.auth_counter ∧
    ((appeal_denial s now aid pr lv h ev).2.auth_requests = s.auth_requests ∨
     ∃ req v, s.auth_requests aid = some req ∧
       (appeal_denial s now aid pr lv h ev).2.auth_requests
         = store_set s.auth_requests aid v) := by
  unfold appeal_denial
  rcases hh : s.auth_requests aid with _ | req
  · dsimp only
    exact ⟨rfl, Or.inl rfl⟩
  · dsimp only
    (repeat' split) <;>
      first
        | exact ⟨rfl, Or.inl rfl⟩
        | exact ⟨rfl, Or.inr ⟨req, _, rfl, rfl⟩⟩

/-- Helper: expedite preserves both counters and either leaves the request
store untouched or rewrites one already-present key. -/
theorem expedite_shape (s : ContractState) (aid pr : Nat) (j : String) (ed : Nat) :
    (expedite_authorization s aid pr j ed).2.auth_counter = s.auth_counter ∧
    (expedite_authorization s aid pr j ed).2.appeal_counter = s.appeal_counter ∧
    ((expedite_authorization s aid pr j ed).2.auth_requests = s.auth_requests ∨
     ∃ req v, s.auth_requests aid = some req ∧
       (expedite_authorization s aid pr j ed).2.auth_requests
         = store_set s.auth_requests aid v) := by
  unfold expedite_authorization
  rcases hh : s.auth_requests aid with _ | req
  · dsimp only
    exact ⟨rfl, rfl, Or.inl rfl⟩
  · dsimp only
    (repeat' split) <;>
      first
        | exact ⟨rfl, rfl, Or.inl rfl⟩
        | exact ⟨rfl, rfl, Or.inr ⟨req, _, rfl, rfl⟩⟩

/-- Helper: extend preserves both counters and leaves the request store
untouched. -/
theorem extend_shape (s : ContractState) (now aid pr : Nat) (rs : String) (u : Nat) :
    (extend_authorization s now aid pr rs u).2.auth_counter = s.auth_counter ∧
    (extend_authorization s now aid pr rs u).2.appeal_counter = s.appeal_counter ∧
    (extend_authorization s now aid pr rs u).2.auth_requests = s.auth_requests := by
  unfold extend_authorization
  rcases hh : s.auth_requests aid with _ | req
  · dsimp only
    exact ⟨rfl, rfl, rfl⟩
  · dsimp only
    (repeat' split) <;> exact ⟨rfl, rfl, rfl⟩

/-- Helper: track preserves both counters and either leaves the request
store untouched or rewrites one already-present key. -/
theorem track_shape (s : ContractState) (now aid pr u sd : Nat) :
    (track_authorization_usage s now aid pr u sd).2.auth_counter = s.auth_counter ∧
    (track_authorization_usage s now aid pr u sd).2.appeal_counter = s.appeal_counter ∧
    ((track_authorization_usage s now aid pr u sd).2.auth_requests = s.auth_requests ∨
     ∃ req v, s.auth_requests aid = some req ∧
       (track_authorization_usage s now aid pr u sd).2.auth_requests
         = store_set s.auth_requests aid v) := by
  unfold track_authorization_usage
  rcases hh : s.auth_requests aid with _ | req
  · dsimp only
    exact ⟨rfl, rfl, Or.inl rfl⟩
  · dsimp only
    (repeat' split) <;>
      first
        | exact ⟨rfl, rfl, Or.inl rfl⟩
        | exact ⟨rfl, rfl, Or.inr ⟨req, _, rfl, rfl⟩⟩

/-- Helper: the counter dominates every stored id in the empty storage. -/
theorem counter_dominates_initial : counter_dominates initial_state := by
  intro j r h
  simp [initial_state] at h

/-- Helper: every step preserves counter domination: non-submit operations
write only at already-present keys and keep the counter, submit writes at the
freshly incremented counter. -/
theorem counter_dominates_step (s : ContractState) (op : Op)
    (hdom : counter_dominates s) : counter_dominates (step s op) := by
  intro j r' hr'
  have hgen : ∀ m : Nat → Option AuthorizationRequest, ∀ c aid : Nat,
      (∀ k rk, m k = some rk → k ≤ c) →
      (∃ req, m aid = some req) →
      ∀ v, store_set m aid v j = some r' → j ≤ c := by
    rintro m c aid hmdom ⟨req, hreq⟩ v hw
    rcases store_set_target hw with ⟨hjk, _⟩ | ⟨_, hm⟩
    · subst hjk
      exact hmdom j req hreq
    · exact hmdom j r' hm
  cases op with
  | submit now pr pa po ty sv sc dc h u =>
    simp only [step, submit_prior_authorization] at hr' ⊢
    rcases store_set_target hr' with ⟨hjk, _⟩ | ⟨_, hm⟩
    · omega
    · have := hdom j r' hm
      omega
  | attach now aid pr h ty =>
    obtain ⟨hc, _, hw⟩ := attach_shape s now aid pr h ty
    simp only [step] at hr' ⊢
    rw [hc]
    rcases hw with hw | ⟨req, v, hreq, hw⟩
    · rw [hw] at hr'
      exact hdom j r' hr'
    · rw [hw] at hr'
      exact hgen s.auth_requests s.auth_counter aid hdom ⟨req, hreq⟩ v hr'
  | review now aid rv d au vf vu ns =>
    obtain ⟨hc, _, hw⟩ := review_shape s now aid rv d au vf vu ns
    simp only [step] at hr' ⊢
    rw [hc]
    rcases hw with hw | ⟨req, v, hreq, hw⟩
    · rw [hw] at hr'
      exact hdom j r' hr'
    · rw [hw] at hr'
      exact hgen s.auth_requests s.auth_counter aid hdom ⟨req, hreq⟩ v hr'
  | request_p2p aid pr rd ts =>
    obtain ⟨hc, _, hw⟩ := request_p2p_shape s aid pr rd ts
    simp only [step] at hr' ⊢
    rw [hc]
    rcases hw with hw | ⟨req, v, hreq, hw⟩
    · rw [hw] at hr'
      exact hdom j r' hr'
    · rw [hw] at hr'
      exact hgen s.auth_requests s.auth_counter aid hdom ⟨req, hreq⟩ v hr'
  | schedule_p2p aid ia st md =>
    obtain ⟨hc, _, hw⟩ := schedule_p2p_shape s aid ia st md
    simp only [step] at hr' ⊢
    rw [hc]
    rcases hw with hw | ⟨req, v, hreq, hw⟩
    · rw [hw] at hr'
      exact hdom j r' hr'
    · rw [hw] at hr'
      exact hgen s.auth_requests s.auth_counter aid hdom ⟨req, hreq⟩ v hr'
  | appeal now aid pr lv h ev =>
    obtain ⟨hc, hw⟩ := appeal_shape s now aid pr lv h ev
    simp only [step] at hr' ⊢
    rw [hc]
    rcases hw with hw | ⟨req, v, hreq, hw⟩
    · rw [hw] at hr'
      exact hdom j r' hr'
    · rw [hw] at hr'
      exact hgen s.auth_requests s.auth_counter aid hdom ⟨req, hreq⟩ v hr'
  | expedite aid pr jj ed =>
    obtain ⟨hc, _, hw⟩ := expedite_shape s aid pr jj ed
    simp only [step] at hr' ⊢
    rw [hc]
    rcases hw with hw | ⟨req, v, hreq, hw⟩
    · rw [hw] at hr'
      exact hdom j r' hr'
    · rw [hw] at hr'
      exact hgen s.auth_requests s.auth_counter aid hdom ⟨req, hreq⟩ v hr'
  | extend now aid pr rs u =>
    obtain ⟨hc, _, hw⟩ := extend_shape s now aid pr rs u
    simp only [step] at hr' ⊢
    rw [hc]
    rw [hw] at hr'
    exact hdom j r' hr'
  | track now aid pr u sd =>
    obtain ⟨hc, _, hw⟩ := track_shape s now aid pr u sd
    simp only [step] at hr' ⊢
    rw [hc]
    rcases hw with hw | ⟨req, v, hreq, hw⟩
    · rw [hw] at hr'
      exact hdom j r' hr'
    · rw [hw] at hr'
      exact hgen s.auth_requests s.auth_counter aid hdom ⟨req, hreq⟩ v hr'
  | get_status aid rq =>
    simp only [step, get_status_state s aid rq] at hr' ⊢
    exact hdom j r' hr'

/-- Helper: counter domination holds after any run from empty storage. -/
theorem run_counter_dominates (ops : List Op) : counter_dominates (run ops) := by
  suffices h : ∀ s, counter_dominates s → counter_dominates (ops.foldl step s) from
    h initial_state counter_dominates_initial
  induction ops with
  | nil => exact fun s hs => hs
  | cons op rest ih => exact fun s hs => ih (step s op) (counter_dominates_step s op hs)

/-- Helper: every reachable state satisfies counter domination. -/
theorem reachable_counter_dominates (s : ContractState) (hs : Reachable s) :
    counter_dominates s := by
  obtain ⟨ops, rfl⟩ := hs
  exact run_counter_dominates ops

/-- C1 (amended): a request whose status is Appealed cannot be re-reviewed at
all; review_authorization rejects it with InvalidStatusTransition for every
decision tag and leaves storage unchanged. -/
theorem review_on_appealed_rejected (s : ContractState)
    (now auth_request_id reviewer_id : Nat) (decision : String)
    (approved_units valid_from valid_until : Option Nat) (review_notes : String)
    (req : AuthorizationRequest)
    (hreq : s.auth_requests auth_request_id = some req)
    (hst : req.status = .Appealed) :
    review_authorization s now auth_request_id reviewer_id decision approved_units valid_from
        valid_until review_notes
      = (.error .InvalidStatusTransition, s) := by
  simp [review_authorization, hreq, hst]

/-- C1 (counterexample): after submit, deny, appeal the request is Appealed,
and a fresh review call with a valid decision tag (approved or denied) fails
with InvalidStatusTransition instead of succeeding. -/
theorem review_appealed_counterexample :
    (req_at appealed_state 1).status = .Appealed ∧
    (review_authorization appealed_state 3 1 7 "approved" (some 10) (some 0) (some 100) "ok").1
      = .error .InvalidStatusTransition ∧
    (review_authorization appealed_state 3 1 7 "denied" none none none "again").1
      = .error .InvalidStatusTransition :=
  ⟨rfl, rfl, rfl⟩

/-- C1 (witness): the amended theorem applied to the concrete Appealed state. -/
theorem review_on_appealed_rejected_witness :
    review_authorization appealed_state 3 1 7 "approved" (some 10) (some 0) (some 100) "ok"
      = (.error .InvalidStatusTransition, appealed_state) :=
  review_on_appealed_rejected appealed_state 3 1 7 "approved" (some 10) (some 0) (some 100) "ok"
    (req_at appealed_state 1) rfl rfl

/-- C5: for an Approved request owned by the caller with valid_until set and
the ledger time strictly past it, track_authorization_usage fails with
AuthorizationExpired while committing exactly one write: the request saved
with status Expired.  No usage record is appended and units_used is
unchanged (the resulting storage differs from s only in that one saved
request, whose units_used field is untouched). -/
theorem expiry_partial_commit (s : ContractState)
    (now auth_request_id provider_id units service_date : Nat)
    (req : AuthorizationRequest) (vu : Nat)
    (hreq : s.auth_requests auth_request_id = some req)
    (hprov : req.provider_id = provider_id)
    (hst : req.status = .Approved)
    (hvu : req.valid_until = some vu)
    (hnow : vu < now) :
    track_authorization_usage s now auth_request_id provider_id units service_date
      = (.error .AuthorizationExpired,
         { s with
           auth_requests := store_set s.auth_requests auth_request_id
             { req with status := .Expired } }) := by
  have hpast : is_past_valid_until req now = true := by
    simp [is_past_valid_until, hvu]
    omega
  exact (track_usage_cases s now auth_request_id provider_id units service_date req
    hreq hprov hst).1 hpast

/-- C5 (witness): tracking at time 20 against a window ending at 10 commits
the Expired flip and reports AuthorizationExpired. -/
theorem expiry_partial_commit_witness :
    track_authorization_usage approved_windowed_state 20 1 1 1 15
      = (.error .AuthorizationExpired,
         { approved_windowed_state with
           auth_requests := store_set approved_windowed_state.auth_requests 1
             { req_at approved_windowed_state 1 with status := .Expired } }) :=
  expiry_partial_commit approved_windowed_state 20 1 1 1 15
    (req_at approved_windowed_state 1) 10 rfl rfl rfl rfl (by decide)

/-- C6: for an Approved, non-expired request owned by the caller with a unit
ceiling, a usage call with units_used + units above the ceiling fails with
ExceedsApprovedUnits and performs no mutation at all: the resulting storage
is exactly the input storage. -/
theorem exceeds_units_no_mutation (s : ContractState)
    (now auth_request_id provider_id units service_date : Nat)
    (req : AuthorizationRequest) (approved : Nat)
    (hreq : s.auth_requests auth_request_id = some req)
    (hprov : req.provider_id = provider_id)
    (hst : req.status = .Approved)
    (hnotpast : is_past_valid_until req now = false)
    (hap : req.approved_units = some approved)
    (hover : approved < req.units_used + units) :
    track_authorization_usage s now auth_request_id provider_id units service_date
      = (.error .ExceedsApprovedUnits, s) := by
  have hex : exceeds_units req units = true := by
    simp [exceeds_units, hap]
    omega
  exact (track_usage_cases s now auth_request_id provider_id units service_date req
    hreq hprov hst).2.1 hnotpast hex

/-- C6 (witness): with 5 of 10 units used, a call for 6 more is rejected with
no state change. -/
theorem exceeds_units_no_mutation_witness :
    track_authorization_usage used_five_state 3 1 1 6 1
      = (.error .ExceedsApprovedUnits, used_five_state) :=
  exceeds_units_no_mutation used_five_state 3 1 1 6 1 (req_at used_five_state 1) 10
    rfl rfl rfl rfl rfl (by decide)

/-- C7: appeal_denial for an existing request owned by the caller: statuses
other than Denied / Appealed are rejected with NotDenied; from Denied or
Appealed a level above MAX_APPEAL_LEVEL, or one that does not strictly exceed
the last recorded appeal's level, is rejected with MaxAppealLevelReached; on
success the freshly numbered appeal is stored under its own id and appended
to the request's appeal list, and the request's status becomes Appealed. -/
theorem appeal_denial_contract (s : ContractState)
    (now auth_request_id provider_id appeal_level appeal_reason_hash : Nat)
    (additional_evidence_hash : Option Nat) (req : AuthorizationRequest)
    (hreq : s.auth_requests auth_request_id = some req)
    (hprov : req.provider_id = provider_id) :
    (req.status ≠ .Denied ∧ req.status ≠ .Appealed →
      appeal_denial s now auth_request_id provider_id appeal_level appeal_reason_hash
          additional_evidence_hash
        = (.error .NotDenied, s)) ∧
    ((req.status = .Denied ∨ req.status = .Appealed) →
      (MAX_APPEAL_LEVEL < appeal_level →
        appeal_denial s now auth_request_id provider_id appeal_level appeal_reason_hash
            additional_evidence_hash
          = (.error .MaxAppealLevelReached, s)) ∧
      (appeal_level ≤ MAX_APPEAL_LEVEL →
        level_not_increasing (s.appeals_for_auth auth_request_id) appeal_level = true →
        appeal_denial s now auth_request_id provider_id appeal_level appeal_reason_hash
            additional_evidence_hash
          = (.error .MaxAppealLevelReached, s)) ∧
      (appeal_level ≤ MAX_APPEAL_LEVEL →
        level_not_increasing (s.appeals_for_auth auth_request_id) appeal_level = false →
        (appeal_denial s now auth_request_id provider_id appeal_level appeal_reason_hash
            additional_evidence_hash).1
          = .ok (s.appeal_counter + 1) ∧
        (appeal_denial s now auth_request_id provider_id appeal_level appeal_reason_hash
            additional_evidence_hash).2.appeal_by_id (s.appeal_counter + 1)
          = some (new_appeal s now auth_request_id provider_id appeal_level appeal_reason_hash
              additional_evidence_hash) ∧
        (appeal_denial s now auth_request_id provider_id appeal_level appeal_reason_hash
            additional_evidence_hash).2.appeals_for_auth auth_request_id
          = s.appeals_for_auth auth_request_id ++
              [new_appeal s now auth_request_id provider_id appeal_level appeal_reason_hash
                additional_evidence_hash] ∧
        (appeal_denial s now auth_request_id provider_id appeal_level appeal_reason_hash
            additional_evidence_hash).2.auth_requests auth_request_id
          = some { req with status := .Appealed })) :=
  appeal_cases s now auth_request_id provider_id appeal_level appeal_reason_hash
    additional_evidence_hash req hreq hprov

/-- C7 (witness): a level-4 appeal on the concrete Appealed state is rejected
with MaxAppealLevelReached. -/
theorem appeal_denial_contract_witness :
    appeal_denial appealed_state 3 1 1 4 6 none
      = (.error .MaxAppealLevelReached, appealed_state) :=
  ((appeal_denial_contract appealed_state 3 1 1 4 6 none (req_at appealed_state 1)
    rfl rfl).2 (Or.inr rfl)).1 (by decide)

/-- C9: for an Approved request owned by the caller with no unit ceiling,
track_authorization_usage can never fail with ExceedsApprovedUnits, and when
the request is not expired any unit amount whatsoever is accepted and added
to units_used. -/
theorem no_ceiling_unbounded (s : ContractState)
    (now auth_request_id provider_id units service_date : Nat)
    (req : AuthorizationRequest)
    (hreq : s.auth_requests auth_request_id = some req)
    (hprov : req.provider_id = provider_id)
    (hst : req.status = .Approved)
    (hnone : req.approved_units = none) :
    (track_authorization_usage s now auth_request_id provider_id units service_date).1
      ≠ .error .ExceedsApprovedUnits ∧
    (is_past_valid_until req now = false →
      track_authorization_usage s now auth_request_id provider_id units service_date
        = (.ok (),
           { s with
             auth_requests := store_set s.auth_requests auth_request_id
               { req with units_used := req.units_used + units }
             usage_records := list_set s.usage_records auth_request_id
               (s.usage_records auth_request_id ++
                 [{ auth_request_id := auth_request_id
                    provider_id := provider_id
                    units_used := units
                    service_date := service_date
                    recorded_at := now }]) })) := by
  have hex : exceeds_units req units = false := by
    simp [exceeds_units, hnone]
  have hcases := track_usage_cases s now auth_request_id provider_id units service_date req
    hreq hprov hst
  constructor
  · cases hpast : is_past_valid_until req now
    · rw [hcases.2.2 hpast hex]
      simp
    · rw [hcases.1 hpast]
      simp
  · intro hpast
    exact hcases.2.2 hpast hex

/-- C9 (witness): one million units pass the ceiling check of a ceiling-less
approval. -/
theorem no_ceiling_unbounded_witness :
    (track_authorization_usage no_ceiling_state 3 1 1 1000000 1).1
      ≠ .error .ExceedsApprovedUnits :=
  (no_ceiling_unbounded no_ceiling_state 3 1 1 1000000 1 (req_at no_ceiling_state 1)
    rfl rfl rfl rfl).1

/-- C10: a level-0 appeal on a Denied request with no prior appeals succeeds
(the code caps levels at 3 but imposes no lower bound), storing an appeal
whose appeal_level is 0. -/
theorem appeal_level_zero_allowed (s : ContractState)
    (now auth_request_id provider_id appeal_reason_hash : Nat)
    (additional_evidence_hash : Option Nat) (req : AuthorizationRequest)
    (hreq : s.auth_requests auth_request_id = some req)
    (hprov : req.provider_id = provider_id)
    (hst : req.status = .Denied)
    (hempty : s.appeals_for_auth auth_request_id = []) :
    (appeal_denial s now auth_request_id provider_id 0 appeal_reason_hash
        additional_evidence_hash).1
      = .ok (s.appeal_counter + 1) ∧
    (appeal_denial s now auth_request_id provider_id 0 appeal_reason_hash
        additional_evidence_hash).2.appeal_by_id (s.appeal_counter + 1)
      = some (new_appeal s now auth_request_id provider_id 0 appeal_reason_hash
          additional_evidence_hash) ∧
    (new_appeal s now auth_request_id provider_id 0 appeal_reason_hash
        additional_evidence_hash).appeal_level = 0 := by
  have hmono : level_not_increasing (s.appeals_for_auth auth_request_id) 0 = false := by
    rw [hempty]
    rfl
  have h := ((appeal_cases s now auth_request_id provider_id 0 appeal_reason_hash
    additional_evidence_hash req hreq hprov).2 (Or.inl hst)).2.2 (by decide) hmono
  exact ⟨h.1, h.2.1, rfl⟩

/-- C10 (witness): the concrete level-0 appeal on the denied request gets
appeal id 1 and stores level 0. -/
theorem appeal_level_zero_allowed_witness :
    (appeal_denial denied_state 2 1 1 0 5 none).1 = .ok (denied_state.appeal_counter + 1) ∧
    (appeal_denial denied_state 2 1 1 0 5 none).2.appeal_by_id (denied_state.appeal_counter + 1)
      = some (new_appeal denied_state 2 1 1 0 5 none) ∧
    (new_appeal denied_state 2 1 1 0 5 none).appeal_level = 0 :=
  appeal_level_zero_allowed denied_state 2 1 1 5 none (req_at denied_state 1)
    rfl rfl rfl rfl

/-- C3 (amended): units_used is monotonically non-decreasing across every
operation, on every reachable state. -/
theorem units_used_monotone (s : ContractState) (hs : Reachable s) (op : Op) (id : Nat)
    (r r' : AuthorizationRequest)
    (hr : s.auth_requests id = some r)
    (hr' : (step s op).auth_requests id = some r') :
    r.units_used ≤ r'.units_used := by
  have hdom := reachable_counter_dominates s hs
  cases op with
  | submit now pr pa po ty sv sc dc h u =>
    simp only [step] at hr'
    rw [submit_requests_frame s now pr pa po ty sv sc dc h u hdom id r r' hr hr']
  | attach now aid pr h ty =>
    simp only [step, attach_frame] at hr'
    obtain rfl := lookup_same hr hr'
    exact Nat.le_refl _
  | review now aid rv d au vf vu ns =>
    simp only [step] at hr'
    rcases review_requests_cases s now aid rv d au vf vu ns id r r' hr hr' with
      rfl | ⟨_, _, ⟨_, rfl⟩ | ⟨_, rfl⟩ | ⟨_, rfl⟩⟩ <;> exact Nat.le_refl _
  | request_p2p aid pr rd ts =>
    simp only [step] at hr'
    rcases p2p_requests_cases s aid pr rd ts id r r' hr hr' with
      rfl | ⟨_, _, _, rfl⟩ <;> exact Nat.le_refl _
  | schedule_p2p aid ia st md =>
    simp only [step] at hr'
    rcases schedule_requests_cases s aid ia st md id r r' hr hr' with
      rfl | ⟨_, rfl⟩ <;> exact Nat.le_refl _
  | appeal now aid pr lv h ev =>
    simp only [step] at hr'
    rcases appeal_requests_cases s now aid pr lv h ev id r r' hr hr' with
      rfl | ⟨_, _, _, rfl⟩ <;> exact Nat.le_refl _
  | expedite aid pr jj ed =>
    simp only [step] at hr'
    rcases expedite_requests_cases s aid pr jj ed id r r' hr hr' with
      rfl | ⟨_, _, _, rfl⟩ <;> exact Nat.le_refl _
  | extend now aid pr rs u =>
    simp only [step, extend_frame] at hr'
    obtain rfl := lookup_same hr hr'
    exact Nat.le_refl _
  | track now aid pr u sd =>
    simp only [step] at hr'
    rcases track_requests_cases s now aid pr u sd id r r' hr hr' with
      rfl | ⟨_, _, _, rfl | rfl⟩
    · exact Nat.le_refl _
    · exact Nat.le_refl _
    · exact Nat.le_add_right _ _
  | get_status aid rq =>
    simp only [step, get_status_state] at hr'
    obtain rfl := lookup_same hr hr'
    exact Nat.le_refl _

/-- C3 (counterexample): after approving with ceiling 10, using 5 units, and
re-approving with ceiling 3 (reachable because schedule_peer_to_peer makes
the request reviewable again), the stored request has units_used = 5 above
approved_units = some 3, refuting the ceiling half of the invariant. -/
theorem units_ceiling_counterexample :
    ((run ceiling_ops).auth_requests 1).map (fun q => (q.units_used, q.approved_units))
      = some (5, some 3) ∧ ¬(5 ≤ 3) :=
  ⟨rfl, by decide⟩

/-- C3 (witness): the monotonicity theorem applied to a concrete tracking
step on the reachable used-five state. -/
theorem units_used_monotone_witness :
    (req_at used_five_state 1).units_used
      ≤ (req_at (step used_five_state (.track 3 1 1 2 1)) 1).units_used :=
  units_used_monotone used_five_state ⟨used_five_ops, rfl⟩ (.track 3 1 1 2 1) 1
    (req_at used_five_state 1) (req_at (step used_five_state (.track 3 1 1 2 1)) 1) rfl rfl

/-- C2 (amended): on a reachable state, the only operations that change the
status of a request sitting in Approved, Denied or Expired are: the lazy
expiry flip of track_authorization_usage (Approved to Expired), appeal_denial
(Denied to Appealed), and — the exception the original claim misses —
schedule_peer_to_peer, which whenever a peer-to-peer record exists sets the
status to PeerToPeerScheduled from any prior status, so even Expired is not
terminal. -/
theorem terminal_status_change_characterization (s : ContractState) (hs : Reachable s)
    (op : Op) (id : Nat) (r r' : AuthorizationRequest)
    (hr : s.auth_requests id = some r)
    (hr' : (step s op).auth_requests id = some r')
    (hterm : r.status = .Approved ∨ r.status = .Denied ∨ r.status = .Expired)
    (hch : r'.status ≠ r.status) :
    (∃ ia st md, op = .schedule_p2p id ia st md ∧ r'.status = .PeerToPeerScheduled) ∨
    (∃ now u sd, op = .track now id r.provider_id u sd ∧ r.status = .Approved ∧
      r'.status = .Expired) ∨
    (∃ now lv h ev, op = .appeal now id r.provider_id lv h ev ∧ r.status = .Denied ∧
      r'.status = .Appealed) := by
  have hdom := reachable_counter_dominates s hs
  cases op with
  | submit now pr pa po ty sv sc dc h u =>
    simp only [step] at hr'
    exact absurd (by
      rw [submit_requests_frame s now pr pa po ty sv sc dc h u hdom id r r' hr hr']) hch
  | attach now aid pr h ty =>
    simp only [step, attach_frame] at hr'
    obtain rfl := lookup_same hr hr'
    exact absurd rfl hch
  | review now aid rv d au vf vu ns =>
    simp only [step] at hr'
    rcases review_requests_cases s now aid rv d au vf vu ns id r r' hr hr' with
      rfl | ⟨_, hguard, _⟩
    · exact absurd rfl hch
    · rcases hterm with h1 | h1 | h1 <;>
        rcases hguard with h2 | h2 | h2 | h2 <;> simp [h1] at h2
  | request_p2p aid pr rd ts =>
    simp only [step] at hr'
    rcases p2p_requests_cases s aid pr rd ts id r r' hr hr' with
      rfl | ⟨_, _, hguard, rfl⟩
    · exact absurd rfl hch
    · rcases hterm with h1 | h1 | h1 <;>
        rcases hguard with h2 | h2 <;> simp [h1] at h2
  | schedule_p2p aid ia st md =>
    simp only [step] at hr'
    rcases schedule_requests_cases s aid ia st md id r r' hr hr' with
      rfl | ⟨rfl, rfl⟩
    · exact absurd rfl hch
    · exact Or.inl ⟨ia, st, md, rfl, rfl⟩
  | appeal now aid pr lv h ev =>
    simp only [step] at hr'
    rcases appeal_requests_cases s now aid pr lv h ev id r r' hr hr' with
      rfl | ⟨rfl, hprov, hguard, rfl⟩
    · exact absurd rfl hch
    · have hden : r.status = .Denied := by
        rcases hguard with h2 | h2
        · exact h2
        · rcases hterm with h1 | h1 | h1 <;> simp [h1] at h2
      refine Or.inr (Or.inr ⟨now, lv, h, ev, ?_, hden, rfl⟩)
      rw [hprov]
  | expedite aid pr jj ed =>
    simp only [step] at hr'
    rcases expedite_requests_cases s aid pr jj ed id r r' hr hr' with
      rfl | ⟨_, _, _, rfl⟩
    · exact absurd rfl hch
    · exact absurd rfl hch
  | extend now aid pr rs u =>
    simp only [step, extend_frame] at hr'
    obtain rfl := lookup_same hr hr'
    exact absurd rfl hch
  | track now aid pr u sd =>
    simp only [step] at hr'
    rcases track_requests_cases s now aid pr u sd id r r' hr hr' with
      rfl | ⟨rfl, hprov, happ, rfl | rfl⟩
    · exact absurd rfl hch
    · refine Or.inr (Or.inl ⟨now, u, sd, ?_, happ, rfl⟩)
      rw [hprov]
    · exact absurd rfl hch
  | get_status aid rq =>
    simp only [step, get_status_state] at hr'
    obtain rfl := lookup_same hr hr'
    exact absurd rfl hch

/-- C2 (counterexample): on the reachable state whose request 1 is Expired
(and has a peer-to-peer record), schedule_peer_to_peer succeeds and moves the
request out of Expired to PeerToPeerScheduled, so Expired is not forever. -/
theorem expired_escape_counterexample :
    (req_at expired_state 1).status = .Expired ∧
    (schedule_peer_to_peer expired_state 1 8 30 9).1 = .ok () ∧
    (req_at (schedule_peer_to_peer expired_state 1 8 30 9).2 1).status
      = .PeerToPeerScheduled :=
  ⟨rfl, rfl, rfl⟩

/-- C2 (witness): the amended characterization applied to the concrete
schedule_peer_to_peer call on the reachable Expired state. -/
theorem terminal_status_change_witness :
    (∃ ia st md, Op.schedule_p2p 1 8 30 9 = Op.schedule_p2p 1 ia st md ∧
      (req_at (step expired_state (Op.schedule_p2p 1 8 30 9)) 1).status
        = .PeerToPeerScheduled) ∨
    (∃ now u sd, Op.schedule_p2p 1 8 30 9
        = Op.track now 1 (req_at expired_state 1).provider_id u sd ∧
      (req_at expired_state 1).status = .Approved ∧
      (req_at (step expired_state (Op.schedule_p2p 1 8 30 9)) 1).status = .Expired) ∨
    (∃ now lv h ev, Op.schedule_p2p 1 8 30 9
        = Op.appeal now 1 (req_at expired_state 1).provider_id lv h ev ∧
      (req_at expired_state 1).status = .Denied ∧
      (req_at (step expired_state (Op.schedule_p2p 1 8 30 9)) 1).status = .Appealed) :=
  terminal_status_change_characterization expired_state ⟨expired_ops, rfl⟩
    (.schedule_p2p 1 8 30 9) 1 (req_at expired_state 1)
    (req_at (step expired_state (.schedule_p2p 1 8 30 9)) 1)
    rfl rfl (Or.inr (Or.inr rfl)) (by decide)

/-- C4 (amended): on a reachable state, valid_from and valid_until change
only through a review_authorization call with decision approved on that
request, which overwrites each field independently with the caller-supplied
optional arguments; they need not be set together, and a later re-approval
can clear them. -/
theorem validity_window_only_approval (s : ContractState) (hs : Reachable s) (op : Op)
    (id : Nat) (r r' : AuthorizationRequest)
    (hr : s.auth_requests id = some r)
    (hr' : (step s op).auth_requests id = some r') :
    (r'.valid_from = r.valid_from ∧ r'.valid_until = r.valid_until) ∨
    (∃ now reviewer_id au ns,
      op = .review now id reviewer_id "approved" au r'.valid_from r'.valid_until ns) := by
  have hdom := reachable_counter_dominates s hs
  cases op with
  | submit now pr pa po ty sv sc dc h u =>
    simp only [step] at hr'
    rw [submit_requests_frame s now pr pa po ty sv sc dc h u hdom id r r' hr hr']
    exact Or.inl ⟨rfl, rfl⟩
  | attach now aid pr h ty =>
    simp only [step, attach_frame] at hr'
    obtain rfl := lookup_same hr hr'
    exact Or.inl ⟨rfl, rfl⟩
  | review now aid rv d au vf vu ns =>
    simp only [step] at hr'
    rcases review_requests_cases s now aid rv d au vf vu ns id r r' hr hr' with
      rfl | ⟨rfl, _, ⟨hd, rfl⟩ | ⟨hd, rfl⟩ | ⟨hd, rfl⟩⟩
    · exact Or.inl ⟨rfl, rfl⟩
    · subst hd
      exact Or.inr ⟨now, rv, au, ns, rfl⟩
    · exact Or.inl ⟨rfl, rfl⟩
    · exact Or.inl ⟨rfl, rfl⟩
  | request_p2p aid pr rd ts =>
    simp only [step] at hr'
    rcases p2p_requests_cases s aid pr rd ts id r r' hr hr' with
      rfl | ⟨_, _, _, rfl⟩ <;> exact Or.inl ⟨rfl, rfl⟩
  | schedule_p2p aid ia st md =>
    simp only [step] at hr'
    rcases schedule_requests_cases s aid ia st md id r r' hr hr' with
      rfl | ⟨_, rfl⟩ <;> exact Or.inl ⟨rfl, rfl⟩
  | appeal now aid pr lv h ev =>
    simp only [step] at hr'
    rcases appeal_requests_cases s now aid pr lv h ev id r r' hr hr' with
      rfl | ⟨_, _, _, rfl⟩ <;> exact Or.inl ⟨rfl, rfl⟩
  | expedite aid pr jj ed =>
    simp only [step] at hr'
    rcases expedite_requests_cases s aid pr jj ed id r r' hr hr' with
      rfl | ⟨_, _, _, rfl⟩ <;> exact Or.inl ⟨rfl, rfl⟩
  | extend now aid pr rs u =>
    simp only [step, extend_frame] at hr'
    obtain rfl := lookup_same hr hr'
    exact Or.inl ⟨rfl, rfl⟩
  | track now aid pr u sd =>
    simp only [step] at hr'
    rcases track_requests_cases s now aid pr u sd id r r' hr hr' with
      rfl | ⟨_, _, _, rfl | rfl⟩ <;> exact Or.inl ⟨rfl, rfl⟩
  | get_status aid rq =>
    simp only [step, get_status_state] at hr'
    obtain rfl := lookup_same hr hr'
    exact Or.inl ⟨rfl, rfl⟩

/-- C4 (counterexample): an approval supplying valid_from = some 5 and
valid_until = none leaves the stored request with a half-set validity window,
refuting sole-joint setting of the two fields. -/
theorem validity_window_counterexample :
    ((run half_window_ops).auth_requests 1).map (fun q => (q.valid_from, q.valid_until))
      = some (some 5, none) :=
  rfl

/-- C4 (witness): the amended theorem applied to the concrete approving
review with a half-set window on the reachable submitted state. -/
theorem validity_window_only_approval_witness :
    ((req_at (step submitted_state half_window_review) 1).valid_from
        = (req_at submitted_state 1).valid_from ∧
      (req_at (step submitted_state half_window_review) 1).valid_until
        = (req_at submitted_state 1).valid_until) ∨
    (∃ now reviewer_id au ns,
      half_window_review = .review now 1 reviewer_id "approved" au
        (req_at (step submitted_state half_window_review) 1).valid_from
        (req_at (step submitted_state half_window_review) 1).valid_until ns) :=
  validity_window_only_approval submitted_state ⟨[op_submit1], rfl⟩ half_window_review 1
    (req_at submitted_state 1) (req_at (step submitted_state half_window_review) 1) rfl rfl

/-- Helper: appeal_denial either succeeds returning the freshly incremented
appeal counter (which the new state records), or fails leaving the state
untouched. -/
theorem appeal_denial_ok_or_error (s : ContractState) (now aid pr lv h : Nat)
    (ev : Option Nat) :
    ((appeal_denial s now aid pr lv h ev).1 = .ok (s.appeal_counter + 1) ∧
     (appeal_denial s now aid pr lv h ev).2.appeal_counter = s.appeal_counter + 1) ∨
    ((∃ e, (appeal_denial s now aid pr lv h ev).1 = .error e) ∧
     (appeal_denial s now aid pr lv h ev).2 = s) := by
  unfold appeal_denial
  rcases hh : s.auth_requests aid with _ | req
  · dsimp only
    exact Or.inr ⟨⟨_, rfl⟩, rfl⟩
  · dsimp only
    (repeat' split) <;>
      first
        | exact Or.inl ⟨rfl, rfl⟩
        | exact Or.inr ⟨⟨_, rfl⟩, rfl⟩

/-- Helper: the ids returned by the successful submits of any run are the
consecutive naturals right above the starting auth counter. -/
theorem submit_ids_general (ops : List Op) : ∀ s : ContractState,
    submit_ids s ops = List.range' (s.auth_counter + 1) (submit_ids s ops).length := by
  induction ops with
  | nil => intro s; rfl
  | cons op rest ih =>
    intro s
    cases op with
    | submit now pr pa po ty sv sc dc h u =>
      simp only [submit_ids, submit_prior_authorization]
      rw [ih]
      simp [List.length_range', List.range'_succ]
    | attach now aid pr h ty =>
      simp only [submit_ids, step]
      rw [ih]
      simp only [List.length_range']
      rw [(attach_shape s now aid pr h ty).1]
    | review now aid rv d au vf vu ns =>
      simp only [submit_ids, step]
      rw [ih]
      simp only [List.length_range']
      rw [(review_shape s now aid rv d au vf vu ns).1]
    | request_p2p aid pr rd ts =>
      simp only [submit_ids, step]
      rw [ih]
      simp only [List.length_range']
      rw [(request_p2p_shape s aid pr rd ts).1]
    | schedule_p2p aid ia st md =>
      simp only [submit_ids, step]
      rw [ih]
      simp only [List.length_range']
      rw [(schedule_p2p_shape s aid ia st md).1]
    | appeal now aid pr lv h ev =>
      simp only [submit_ids, step]
      rw [ih]
      simp only [List.length_range']
      rw [(appeal_shape s now aid pr lv h ev).1]
    | expedite aid pr jj ed =>
      simp only [submit_ids, step]
      rw [ih]
      simp only [List.length_range']
      rw [(expedite_shape s aid pr jj ed).1]
    | extend now aid pr rs u =>
      simp only [submit_ids, step]
      rw [ih]
      simp only [List.length_range']
      rw [(extend_shape s now aid pr rs u).1]
    | track now aid pr u sd =>
      simp only [submit_ids, step]
      rw [ih]
      simp only [List.length_range']
      rw [(track_shape s now aid pr u sd).1]
    | get_status aid rq =>
      simp only [submit_ids, step, get_status_state]
      rw [ih]
      simp only [List.length_range']

/-- Helper: the ids returned by the successful appeals of any run are the
consecutive naturals right above the starting appeal counter. -/
theorem appeal_ids_general (ops : List Op) : ∀ s : ContractState,
    appeal_ids s ops = List.range' (s.appeal_counter + 1) (appeal_ids s ops).length := by
  induction ops with
  | nil => intro s; rfl
  | cons op rest ih =>
    intro s
    cases op with
    | appeal now aid pr lv h ev =>
      have hoe := appeal_denial_ok_or_error s now aid pr lv h ev
      rcases hshape : appeal_denial s now aid pr lv h ev with ⟨res, s2⟩
      rw [hshape] at hoe
      rcases hoe with ⟨h1, h2⟩ | ⟨⟨e, h1⟩, h2⟩
      · dsimp only at h1 h2
        subst h1
        simp only [appeal_ids]
        rw [hshape]
        dsimp only
        rw [ih]
        simp only [List.length_range', List.length_cons]
        rw [h2]
        simp [List.range'_succ]
      · dsimp only at h1 h2
        subst h1
        subst h2
        simp only [appeal_ids]
        rw [hshape]
        dsimp only
        rw [ih]
        simp only [List.length_range']
    | submit now pr pa po ty sv sc dc h u =>
      simp only [appeal_ids, step]
      rw [ih]
      simp only [List.length_range']
      rfl
    | attach now aid pr h ty =>
      simp only [appeal_ids, step]
      rw [ih]
      simp only [List.length_range']
      rw [(attach_shape s now aid pr h ty).2.1]
    | review now aid rv d au vf vu ns =>
      simp only [appeal_ids, step]
      rw [ih]
      simp only [List.length_range']
      rw [(review_shape s now aid rv d au vf vu ns).2.1]
    | request_p2p aid pr rd ts =>
      simp only [appeal_ids, step]
      rw [ih]
      simp only [List.length_range']
      rw [(request_p2p_shape s aid pr rd ts).2.1]
    | schedule_p2p aid ia st md =>
      simp only [appeal_ids, step]
      rw [ih]
      simp only [List.length_range']
      rw [(schedule_p2p_shape s aid ia st md).2.1]
    | expedite aid pr jj ed =>
      simp only [appeal_ids, step]
      rw [ih]
      simp only [List.length_range']
      rw [(expedite_shape s aid pr jj ed).2.1]
    | extend now aid pr rs u =>
      simp only [appeal_ids, step]
      rw [ih]
      simp only [List.length_range']
      rw [(extend_shape s now aid pr rs u).2.1]
    | track now aid pr u sd =>
      simp only [appeal_ids, step]
      rw [ih]
      simp only [List.length_range']
      rw [(track_shape s now aid pr u sd).2.1]
    | get_status aid rq =>
      simp only [appeal_ids, step, get_status_state]
      rw [ih]
      simp only [List.length_range']

/-- C8: across any call sequence from empty storage, the ids returned by the
successful submit calls are exactly 1, 2, 3, ... in order (strictly
increasing from 1, no gaps, no reuse), and the ids returned by the successful
appeal calls are likewise 1, 2, 3, ... from their own counter. -/
theorem ids_sequential (ops : List Op) :
    submit_ids initial_state ops
      = List.range' 1 (submit_ids initial_state ops).length ∧
    appeal_ids initial_state ops
      = List.range' 1 (appeal_ids initial_state ops).length :=
  ⟨submit_ids_general ops initial_state, appeal_ids_general ops initial_state⟩

end PriorAuth
